import Mathlib

/-!
Verification of the patent-scraper core (src/patent_scraper.py) against its
natural-language specification.

Strings are modelled as `List Char`.  Python's whitespace-sensitive string
primitives (`str.strip`, `str.split`, `re.sub(r'\s+', ' ', ...)`, the `in`
substring test, `'\n'`-splitting) are embedded as executable functions below,
and the scraper's data model, field extraction, readiness check, per-page
scrape and pagination driver are embedded on top of them.  Interaction with
the browser is represented by explicit environments: the text a page renders,
whether the readiness wait timed out, which exception (if any) a page's
processing raises, and how driver setup goes.
-/

/-- Whitespace characters recognised by Python's `str.strip`/`str.split` and
by the regex class `\s` (ASCII range): space, tab, newline, carriage return,
vertical tab, form feed. -/
def isSpace (c : Char) : Bool :=
  c == ' ' || c == '\t' || c == '\n' || c == '\r' || c == '\x0b' || c == '\x0c'

/-- Python `s.strip()`: drop leading and trailing whitespace. -/
def pyStrip (l : List Char) : List Char :=
  ((l.dropWhile isSpace).reverse.dropWhile isSpace).reverse

/-- Python `re.sub(r'\s+', ' ', s)`: every maximal run of whitespace becomes a
single space. -/
def collapseWs : List Char → List Char
  | [] => []
  | [c] => if isSpace c then [' '] else [c]
  | c :: d :: cs =>
    if isSpace c && isSpace d then collapseWs (d :: cs)
    else (if isSpace c then ' ' else c) :: collapseWs (d :: cs)

/-- Helper for `pySplit`: `acc` holds the (reversed) characters of the word
currently being read. -/
def pySplitAux : List Char → List Char → List (List Char)
  | [], acc => if acc.isEmpty then [] else [acc.reverse]
  | c :: cs, acc =>
    if isSpace c then
      if acc.isEmpty then pySplitAux cs [] else acc.reverse :: pySplitAux cs []
    else pySplitAux cs (c :: acc)

/-- Python `s.split()` (no separator argument): split on runs of whitespace,
producing no empty words. -/
def pySplit (l : List Char) : List (List Char) :=
  pySplitAux l []

/-- Python `" ".join(ws)`. -/
def joinWords : List (List Char) → List Char
  | [] => []
  | [w] => w
  | w :: ws => w ++ ' ' :: joinWords ws

/-- Python `needle in hay` on strings: substring occurrence. -/
def containsSub (hay needle : List Char) : Bool :=
  hay.tails.any (fun t => needle.isPrefixOf t)

/-- The `placeholder_indicators` list of `PatentScraper.wait_for_content_load`
(src/patent_scraper.py lines 169-173). -/
def placeholder_indicators : List (List Char) :=
  ["Searching...".data,
   "Your search found no results".data,
   "Please note that ExploreIP does not provide a search of all known patents".data]

/-- The `skip_indicators` list of `PatentScraper.extract_patent_from_element`
(src/patent_scraper.py lines 190-194). -/
def skip_indicators : List (List Char) :=
  ["Searching...".data,
   "Keyword search".data,
   "Save your search".data,
   "Collaboration Opportunities".data,
   "Licensing Opportunity".data,
   "Your search found no results".data,
   "Please note that ExploreIP".data]

/-- `any(indicator in text for indicator in placeholder_indicators)`
(src/patent_scraper.py line 175). -/
def hasPlaceholder (pageText : List Char) : Bool :=
  placeholder_indicators.any (fun ind => containsSub pageText ind)

/-- `any(indicator in text for indicator in skip_indicators)`
(src/patent_scraper.py lines 196, 203, 247). -/
def containsAnySkip (text : List Char) : Bool :=
  skip_indicators.any (fun ind => containsSub text ind)

/-- `PatentScraper.wait_for_content_load` (src/patent_scraper.py lines
153-180).  `timedOut` says whether the `WebDriverWait.until_not` call raised
`TimeoutException`; that exception is caught and only logged (the returned
list of log warnings records it), after which the settle sleep runs and the
body text `pageText` is classified by the placeholder check alone.  Returns
`(ready, warnings)`. -/
def wait_for_content_load (timedOut : Bool) (pageText : List Char) :
    Bool × List String :=
  let warnings : List String :=
    if timedOut then ["page may still be loading after timeout"] else []
  if hasPlaceholder pageText then
    (false, warnings ++ ["page still contains placeholder text"])
  else
    (true, warnings)

/-- The `PatentData` dataclass (src/patent_scraper.py lines 40-58); every
field defaults to the empty string. -/
structure PatentData where
  title : List Char := []
  patent_number : List Char := []
  organization : List Char := []
  patent_type : List Char := []
  year : List Char := []
  date_added : List Char := []
  url : List Char := []
  description : List Char := []
deriving DecidableEq

/-- `PatentData.is_valid` (src/patent_scraper.py lines 56-58):
`bool(self.title.strip() or self.patent_number.strip())`. -/
def PatentData.is_valid (p : PatentData) : Bool :=
  !(pyStrip p.title).isEmpty || !(pyStrip p.patent_number).isEmpty

/-- `PatentScraper.clean_patent_title` (src/patent_scraper.py lines 253-272):
collapse whitespace, then if there are more than 10 words and the first half
(floor midpoint) equals the second half after stripping, keep the first half
only. -/
def clean_patent_title (title : List Char) : List Char :=
  if title.isEmpty then []
  else
    let t := collapseWs (pyStrip title)
    let words := pySplit t
    if 10 < words.length then
      let midpoint := words.length / 2
      let first_half := joinWords (words.take midpoint)
      let second_half := joinWords (words.drop midpoint)
      if pyStrip first_half = pyStrip second_half then pyStrip first_half else t
    else t

/-- One candidate record container as `extract_patent_from_element` sees it
(src/patent_scraper.py lines 182-251): its full `get_text()` and the text (or
absence) of each structural sub-element the code queries with `select_one`.
`desktopDisplayHref` is the `href` attribute of the `.desktop-display` link,
`none` when the element or the attribute is missing. -/
structure Element where
  text : List Char := []
  resultTitle : Option (List Char) := none
  publicationNumber : Option (List Char) := none
  organisation : Option (List Char) := none
  ipType : Option (List Char) := none
  filed : Option (List Char) := none
  dateAdded : Option (List Char) := none
  inventionDescription : Option (List Char) := none
  desktopDisplayHref : Option (List Char) := none
deriving DecidableEq

/-- The URL prefix prepended to a relative `href`
(src/patent_scraper.py line 239). -/
def canada_host : List Char := "https://ised-isde.canada.ca".data

/-- Python `[line.strip() for line in text_content.split('\n') if line.strip()]`
(src/patent_scraper.py line 243). -/
def fallback_lines (text_content : List Char) : List (List Char) :=
  (text_content.splitOn '\n').filterMap (fun line =>
    let s := pyStrip line
    if s.isEmpty then none else some s)

/-- `PatentScraper.extract_patent_from_element` (src/patent_scraper.py lines
182-251): skip-indicator rejection first, then per-field extraction from the
structural sub-elements, then the text-line fallback for the title, and
finally the validity gate `return patent if patent.is_valid() else None`. -/
def extract_patent_from_element (item : Element) : Option PatentData :=
  let text_content := pyStrip item.text
  if containsAnySkip text_content then none
  else
    let title :=
      match item.resultTitle with
      | some t0 =>
        let title_text := pyStrip t0
        if !title_text.isEmpty && !containsAnySkip title_text then
          clean_patent_title title_text
        else []
      | none => []
    let patent_number := (item.publicationNumber.map pyStrip).getD []
    let organization := (item.organisation.map pyStrip).getD []
    let patent_type := (item.ipType.map pyStrip).getD []
    let year := (item.filed.map pyStrip).getD []
    let date_added := (item.dateAdded.map pyStrip).getD []
    let description := (item.inventionDescription.map pyStrip).getD []
    let url :=
      match item.desktopDisplayHref with
      | some href => if href.isEmpty then [] else canada_host ++ href
      | none => []
    let title :=
      if title.isEmpty && !text_content.isEmpty then
        match (fallback_lines text_content).find? (fun line =>
            !containsAnySkip line && decide (10 < line.length)) with
        | some line => clean_patent_title line
        | none => title
      else title
    let patent : PatentData :=
      { title := title, patent_number := patent_number,
        organization := organization, patent_type := patent_type,
        year := year, date_added := date_added, url := url,
        description := description }
    if patent.is_valid then some patent else none

/-- One parsed page snapshot as `scrape_patent_page` consumes it
(src/patent_scraper.py lines 295-318): the `tr` elements whose class contains
`ng-scope`, and all `div` elements. -/
structure Page where
  ngScopeRows : List Element := []
  divs : List Element := []
deriving Inhabited

/-- The extraction part of `PatentScraper.scrape_patent_page`
(src/patent_scraper.py lines 295-321): primary path over the `ng-scope` table
rows that contain a `.result-title`, and if that yields nothing, the fallback
over every `div` whose stripped text is longer than 50 characters and free of
the two boilerplate markers. -/
def scrape_page_core (pg : Page) : List PatentData :=
  let patents :=
    (pg.ngScopeRows.filter (fun row => row.resultTitle.isSome)).filterMap
      extract_patent_from_element
  if patents.isEmpty then
    (pg.divs.filter (fun d =>
        let text := pyStrip d.text
        decide (50 < text.length) &&
          !(containsSub text "Searching...".data) &&
          !(containsSub text "Keyword search".data))).filterMap
      extract_patent_from_element
  else patents

/-- Exceptions the embedded page operations can raise.  All of them are
subclasses of Python's `Exception` (selenium's `TimeoutException` and
`WebDriverException`, or anything else). -/
inductive PyExn where
  | timeoutException : PyExn
  | webDriverException : PyExn
  | otherException : Nat → PyExn
deriving DecidableEq

/-- Everything the environment decides about one page attempt: whether some
step of the attempt's body (navigation, readiness waiting, snapshot parsing)
raises, whether the readiness wait's `until_not` timed out, the body text the
page renders, and the parsed snapshot. -/
structure PageEnv where
  exn : Option PyExn := none
  timedOut : Bool := false
  pageText : List Char := []
  page : Page := {}

/-- The body of the `try` block of `PatentScraper.scrape_patent_page`
(src/patent_scraper.py lines 285-321): navigate, wait for readiness, return
`[]` when not ready, otherwise parse and extract.  `.error` is an exception
propagating out of the body. -/
def scrape_page_body (pe : PageEnv) : Except PyExn (List PatentData) :=
  match pe.exn with
  | some e => .error e
  | none =>
    if (wait_for_content_load pe.timedOut pe.pageText).1 then
      .ok (scrape_page_core pe.page)
    else
      .ok []

/-- `PatentScraper.scrape_patent_page` (src/patent_scraper.py lines 274-328):
the body wrapped in `except TimeoutException: return []` and
`except Exception: return []`. -/
def scrape_patent_page (pe : PageEnv) : Except PyExn (List PatentData) :=
  match scrape_page_body pe with
  | .ok ps => .ok ps
  | .error PyExn.timeoutException => .ok []
  | .error _ => .ok []

/-- Observable actions of a run, in order: a navigation to a page (the
`driver.get` of an attempt), the retry backoff sleep of
`rate_limit_delay * 2` seconds, the unconditional per-page rate-limit sleep
of `rate_limit_delay` seconds, and quitting the driver. -/
inductive Event where
  | navigate : Nat → Event
  | retrySleep : Nat → Nat → Event
  | rateSleep : Nat → Nat → Event
  | closeDriver : Event
deriving DecidableEq

/-- The page index an event belongs to (`none` for `closeDriver`). -/
def eventPage : Event → Option Nat
  | .navigate p => some p
  | .retrySleep p _ => some p
  | .rateSleep p _ => some p
  | .closeDriver => none

/-- The scraper configuration fields the driver loop reads
(src/patent_scraper.py lines 60-85). -/
structure ScraperConfig where
  start_page : Nat := 1
  end_page : Nat := 20
  rate_limit_delay : Nat := 5
  max_retries : Nat := 3

/-- Python `range(config.start_page, config.end_page + 1)`
(src/patent_scraper.py line 351). -/
def pageRange (cfg : ScraperConfig) : List Nat :=
  List.range' cfg.start_page (cfg.end_page + 1 - cfg.start_page)

/-- The `while retries < max_retries` loop of `scrape_all_pages` for one page
(src/patent_scraper.py lines 352-363), recursing on the number of loop
iterations still allowed (`max_retries - retries`).  Each iteration attempts
the page; on a caught exception it sleeps `rate_limit_delay * 2` and counts a
retry.  Returns the events emitted, the records collected for the page, and
the final value of the `retries` counter. -/
def pageLoop (pe : PageEnv) (p : Nat) (rate : Nat) :
    Nat → List Event × List PatentData × Nat
  | 0 => ([], [], 0)
  | fuel + 1 =>
    match scrape_patent_page pe with
    | .ok ps => ([Event.navigate p], ps, 0)
    | .error _ =>
      (Event.navigate p :: Event.retrySleep p (rate * 2) ::
          (pageLoop pe p rate fuel).1,
        (pageLoop pe p rate fuel).2.1,
        (pageLoop pe p rate fuel).2.2 + 1)

/-- How `PatentScraper.setup_driver` (src/patent_scraper.py lines 112-151)
can go: success (`return True`, driver assigned); a `WebDriverException`
before `self.driver = webdriver.Chrome(...)` at line 130 runs (`return
False`, driver still `None`); or a `WebDriverException` from one of the
`execute_script` calls after line 130 (`return False`, driver already
assigned to a live session). -/
inductive SetupOutcome where
  | ok : SetupOutcome
  | failBeforeCreate : SetupOutcome
  | failAfterCreate : SetupOutcome
deriving DecidableEq

/-- `setup_driver` as `(driverAssigned, returnValue)`. -/
def setup_driver : SetupOutcome → Bool × Bool
  | .ok => (true, true)
  | .failBeforeCreate => (false, false)
  | .failAfterCreate => (true, false)

/-- The environment of a whole run: how setup goes, the per-page environment,
and (to exercise the `finally` clause) the index of the page at whose start a
non-`Exception` interrupt (for example `KeyboardInterrupt`) arrives, if
any. -/
structure RunEnv where
  setup : SetupOutcome := .ok
  pageEnvs : Nat → PageEnv := fun _ => {}
  interruptAt : Option Nat := none

/-- The `for page in range(...)` loop inside the `try` of `scrape_all_pages`
(src/patent_scraper.py lines 351-366): per page, the retry loop and then the
unconditional `time.sleep(rate_limit_delay)`.  The returned flag is true when
an interrupt escaped the loop. -/
def processPages (cfg : ScraperConfig) (env : RunEnv) :
    List Nat → List Event × List PatentData × Bool
  | [] => ([], [], false)
  | p :: rest =>
    if env.interruptAt = some p then ([], [], true)
    else
      ((pageLoop (env.pageEnvs p) p cfg.rate_limit_delay cfg.max_retries).1 ++
          Event.rateSleep p cfg.rate_limit_delay :: (processPages cfg env rest).1,
        (pageLoop (env.pageEnvs p) p cfg.rate_limit_delay cfg.max_retries).2.1 ++
          (processPages cfg env rest).2.1,
        (processPages cfg env rest).2.2)

/-- What a call of `scrape_all_pages` leaves behind: the returned records,
the events that happened, whether `self.driver` still holds an unquit live
session when the call ends, whether the call ends by propagating an
exception, and whether setup succeeded. -/
structure RunOutcome where
  records : List PatentData
  events : List Event
  driverOpen : Bool
  raised : Bool
  setupOk : Bool

/-- `PatentScraper.scrape_all_pages` (src/patent_scraper.py lines 342-374):
if `setup_driver` returns `False` the method returns `[]` at once (no `try`
is entered, so nothing is closed); otherwise the page loop runs inside
`try ... finally: if self.driver: self.driver.quit()`, so the driver is quit
whether the loop completes or an interrupt escapes it. -/
def scrape_all_pages (cfg : ScraperConfig) (env : RunEnv) : RunOutcome :=
  if (setup_driver env.setup).2 then
    { records := (processPages cfg env (pageRange cfg)).2.1,
      events := (processPages cfg env (pageRange cfg)).1 ++ [Event.closeDriver],
      driverOpen := false,
      raised := (processPages cfg env (pageRange cfg)).2.2,
      setupOk := true }
  else
    { records := [], events := [], driverOpen := (setup_driver env.setup).1,
      raised := false, setupOk := false }

/-- The process exit code of the standalone entry point `main`
(src/patent_scraper.py lines 376-427): `main` calls `scrape_all_pages`,
branches on whether any records came back (saving files or logging an
error), and falls off the end either way — it never calls `sys.exit`.  The
Python process therefore exits 0 unless an exception propagates out of
`main`. -/
def mainExitCode (cfg : ScraperConfig) (env : RunEnv) : Nat :=
  if (scrape_all_pages cfg env).raised then 1 else 0

/-- Concrete fixtures used by witnesses and counterexamples below. -/
def cfgSmall : ScraperConfig :=
  { start_page := 1, end_page := 2, rate_limit_delay := 5, max_retries := 3 }

/-- A container that extracts to one structured record. -/
def e1 : Element :=
  { text := "irrelevant container text".data,
    resultTitle := some "Widget Improvement".data,
    publicationNumber := some "CA1234567".data }

/-- A page whose only `ng-scope` row is `e1`. -/
def pg1 : Page := { ngScopeRows := [e1], divs := [] }

/-- A container whose text matches the skip-indicator "Keyword search". -/
def eSkip : Element :=
  { text := "Keyword search for patents".data,
    resultTitle := some "Some Title".data,
    publicationNumber := some "CA123".data }

/-- A page environment whose rendered text never loses the "Searching..."
placeholder: the readiness check reports it not ready on every attempt. -/
def peNotReady : PageEnv := { pageText := "Searching... please wait".data }

/-- A page environment whose attempt body raises a `WebDriverException`. -/
def peExn : PageEnv := { exn := some PyExn.webDriverException }

/-- A run whose driver setup succeeds and that is never interrupted. -/
def envOk : RunEnv := {}

/-- A run in which the driver is created but a later setup step fails. -/
def envLeak : RunEnv := { setup := SetupOutcome.failAfterCreate }

/-- A run in which setup fails before the driver is created. -/
def envNoDriver : RunEnv := { setup := SetupOutcome.failBeforeCreate }

/-! ## Lemmas about the string primitives -/

/-- Splitting ignores leading whitespace. -/
theorem pySplitAux_dropWhile (t : List Char) :
    pySplitAux (t.dropWhile isSpace) [] = pySplitAux t [] := by
  induction t with
  | nil => rfl
  | cons c cs ih =>
    cases h : isSpace c with
    | true => simp [List.dropWhile_cons, h, pySplitAux, ih]
    | false => simp [List.dropWhile_cons, h, pySplitAux]

/-- Splitting an all-whitespace tail yields only the pending word. -/
theorem pySplitAux_all_space (s : List Char) (hs : ∀ c ∈ s, isSpace c = true) :
    ∀ acc : List Char, pySplitAux s acc = if acc.isEmpty then [] else [acc.reverse] := by
  induction s with
  | nil => intro acc; rfl
  | cons c cs ih =>
    intro acc
    have hc : isSpace c = true := hs c (List.mem_cons_self c cs)
    have hcs : ∀ x ∈ cs, isSpace x = true := fun x hx => hs x (List.mem_cons_of_mem c hx)
    cases hacc : acc.isEmpty with
    | true =>
      simp only [pySplitAux, hc, if_true, hacc]
      rw [ih hcs []]
      rfl
    | false =>
      simp only [pySplitAux, hc, if_true, hacc]
      rw [ih hcs []]
      rfl

/-- Splitting ignores an all-whitespace suffix. -/
theorem pySplitAux_append_space (s : List Char) (hs : ∀ c ∈ s, isSpace c = true) :
    ∀ (t acc : List Char), pySplitAux (t ++ s) acc = pySplitAux t acc := by
  intro t
  induction t with
  | nil =>
    intro acc
    simp only [List.nil_append]
    rw [pySplitAux_all_space s hs acc]
    rfl
  | cons c cs ih =>
    intro acc
    cases h : isSpace c with
    | true => simp [pySplitAux, h, ih]
    | false => simp [pySplitAux, h, ih]

/-- Splitting ignores stripping: `pySplit (pyStrip t) = pySplit t`. -/
theorem pySplit_pyStrip (t : List Char) : pySplit (pyStrip t) = pySplit t := by
  unfold pySplit pyStrip
  have hdecomp :
      t.dropWhile isSpace =
        ((t.dropWhile isSpace).reverse.dropWhile isSpace).reverse ++
          ((t.dropWhile isSpace).reverse.takeWhile isSpace).reverse := by
    calc t.dropWhile isSpace
        = (t.dropWhile isSpace).reverse.reverse := by rw [List.reverse_reverse]
      _ = ((t.dropWhile isSpace).reverse.takeWhile isSpace ++
            (t.dropWhile isSpace).reverse.dropWhile isSpace).reverse := by
            rw [List.takeWhile_append_dropWhile]
      _ = ((t.dropWhile isSpace).reverse.dropWhile isSpace).reverse ++
            ((t.dropWhile isSpace).reverse.takeWhile isSpace).reverse := by
            rw [List.reverse_append]
  have hspace : ∀ c ∈ ((t.dropWhile isSpace).reverse.takeWhile isSpace).reverse,
      isSpace c = true := by
    intro c hc
    rw [List.mem_reverse] at hc
    exact List.mem_takeWhile_imp hc
  calc pySplitAux ((t.dropWhile isSpace).reverse.dropWhile isSpace).reverse []
      = pySplitAux (((t.dropWhile isSpace).reverse.dropWhile isSpace).reverse ++
          ((t.dropWhile isSpace).reverse.takeWhile isSpace).reverse) [] := by
        rw [pySplitAux_append_space _ hspace]
    _ = pySplitAux (t.dropWhile isSpace) [] := by rw [← hdecomp]
    _ = pySplitAux t [] := pySplitAux_dropWhile t

/-- Unfolding equation: `collapseWs` on two or more characters. -/
theorem collapseWs_cons2 (c d : Char) (cs : List Char) :
    collapseWs (c :: d :: cs) =
      if isSpace c && isSpace d then collapseWs (d :: cs)
      else (if isSpace c then ' ' else c) :: collapseWs (d :: cs) := rfl

/-- Unfolding equation: `pySplitAux` on a cons. -/
theorem pySplitAux_cons (c : Char) (cs acc : List Char) :
    pySplitAux (c :: cs) acc =
      if isSpace c then
        if acc.isEmpty then pySplitAux cs [] else acc.reverse :: pySplitAux cs []
      else pySplitAux cs (c :: acc) := rfl

/-- The space character is whitespace. -/
theorem isSpace_space : isSpace ' ' = true := rfl

/-- Splitting ignores whitespace collapsing. -/
theorem pySplitAux_collapseWs (u : List Char) :
    ∀ acc : List Char, pySplitAux (collapseWs u) acc = pySplitAux u acc := by
  induction u with
  | nil => intro acc; rfl
  | cons c cs ih =>
    intro acc
    cases cs with
    | nil =>
      cases hc : isSpace c with
      | true =>
        rw [show collapseWs [c] = if isSpace c then [' '] else [c] from rfl, hc]
        simp [pySplitAux_cons, hc, isSpace_space]
      | false =>
        rw [show collapseWs [c] = if isSpace c then [' '] else [c] from rfl, hc]
        simp
    | cons d cs' =>
      cases hc : isSpace c with
      | true =>
        cases hd : isSpace d with
        | true =>
          rw [collapseWs_cons2, hc, hd]
          simp only [Bool.and_self, if_true]
          rw [ih acc]
          simp [pySplitAux_cons, hc, hd]
        | false =>
          rw [collapseWs_cons2, hc, hd]
          simp only [Bool.and_false, Bool.false_eq_true, if_false, if_true]
          simp [pySplitAux_cons, hc, hd, isSpace_space, ih]
      | false =>
        rw [collapseWs_cons2, hc]
        simp only [Bool.false_and, Bool.false_eq_true, if_false]
        simp [pySplitAux_cons, hc, ih]

/-- Splitting commutes with the full normalisation the code performs before
splitting: `pySplit (collapseWs (pyStrip t)) = pySplit t`. -/
theorem pySplit_collapse_strip (t : List Char) :
    pySplit (collapseWs (pyStrip t)) = pySplit t := by
  unfold pySplit
  rw [pySplitAux_collapseWs]
  exact pySplit_pyStrip t

/-- Words produced by splitting are nonempty and contain no whitespace. -/
theorem pySplitAux_wellformed (t : List Char) :
    ∀ acc : List Char, (∀ c ∈ acc, isSpace c = false) →
      ∀ w ∈ pySplitAux t acc, w ≠ [] ∧ ∀ c ∈ w, isSpace c = false := by
  induction t with
  | nil =>
    intro acc hacc w hw
    by_cases h : acc.isEmpty
    · rw [show pySplitAux [] acc = if acc.isEmpty then [] else [acc.reverse] from rfl,
        if_pos h] at hw
      exact absurd hw (List.not_mem_nil w)
    · rw [show pySplitAux [] acc = if acc.isEmpty then [] else [acc.reverse] from rfl,
        if_neg h] at hw
      rcases List.mem_singleton.mp hw with rfl
      refine ⟨fun hrev => h ?_, fun c hc => hacc c (List.mem_reverse.mp hc)⟩
      rw [List.isEmpty_iff]
      simpa using congrArg List.reverse hrev
  | cons c cs ih =>
    intro acc hacc w hw
    rw [pySplitAux_cons] at hw
    cases hc : isSpace c with
    | true =>
      rw [hc, if_pos rfl] at hw
      by_cases h : acc.isEmpty
      · rw [if_pos h] at hw
        exact ih [] (by intro x hx; exact absurd hx (List.not_mem_nil x)) w hw
      · rw [if_neg h] at hw
        rcases List.mem_cons.mp hw with rfl | hw'
        · refine ⟨fun hrev => h ?_, fun x hx => hacc x (List.mem_reverse.mp hx)⟩
          rw [List.isEmpty_iff]
          simpa using congrArg List.reverse hrev
        · exact ih [] (by intro x hx; exact absurd hx (List.not_mem_nil x)) w hw'
    | false =>
      rw [hc] at hw
      simp only [Bool.false_eq_true, if_false] at hw
      refine ih (c :: acc) ?_ w hw
      intro x hx
      rcases List.mem_cons.mp hx with rfl | hx'
      · exact hc
      · exact hacc x hx'

/-- Words produced by `pySplit` are nonempty and whitespace-free. -/
theorem pySplit_wellformed (t : List Char) :
    ∀ w ∈ pySplit t, w ≠ [] ∧ ∀ c ∈ w, isSpace c = false :=
  pySplitAux_wellformed t [] (fun c hc => absurd hc (List.not_mem_nil c))

/-- A join of nonempty words is nonempty. -/
theorem joinWords_ne_nil (ws : List (List Char)) (hne : ws ≠ [])
    (hw : ∀ w ∈ ws, w ≠ []) : joinWords ws ≠ [] := by
  cases ws with
  | nil => exact absurd rfl hne
  | cons w ws' =>
    cases ws' with
    | nil => exact hw w (List.mem_cons_self w [])
    | cons v vs =>
      show w ++ ' ' :: joinWords (v :: vs) ≠ []
      simp

/-- The first character of a join of wellformed words is not whitespace. -/
theorem joinWords_head_nonspace (ws : List (List Char)) (hne : ws ≠ [])
    (hw : ∀ w ∈ ws, w ≠ [] ∧ ∀ c ∈ w, isSpace c = false) :
    ∃ c t, joinWords ws = c :: t ∧ isSpace c = false := by
  cases ws with
  | nil => exact absurd rfl hne
  | cons w ws' =>
    obtain ⟨hwne, hwsp⟩ := hw w (List.mem_cons_self w ws')
    cases w with
    | nil => exact absurd rfl hwne
    | cons a w' =>
      have ha : isSpace a = false := hwsp a (List.mem_cons_self a w')
      cases ws' with
      | nil => exact ⟨a, w', rfl, ha⟩
      | cons v vs =>
        exact ⟨a, w' ++ ' ' :: joinWords (v :: vs), rfl, ha⟩

/-- The last character of a join of wellformed words is not whitespace. -/
theorem joinWords_last_nonspace (ws : List (List Char)) (hne : ws ≠ [])
    (hw : ∀ w ∈ ws, w ≠ [] ∧ ∀ c ∈ w, isSpace c = false) :
    ∃ c t, (joinWords ws).reverse = c :: t ∧ isSpace c = false := by
  induction ws with
  | nil => exact absurd rfl hne
  | cons w ws' ih =>
    cases ws' with
    | nil =>
      obtain ⟨hwne, hwsp⟩ := hw w (List.mem_cons_self w [])
      have : (joinWords [w]).reverse = w.reverse := rfl
      rw [this]
      cases hrev : w.reverse with
      | nil =>
        exact absurd (by simpa using congrArg List.reverse hrev) hwne
      | cons a t =>
        refine ⟨a, t, rfl, hwsp a ?_⟩
        have : a ∈ w.reverse := by rw [hrev]; exact List.mem_cons_self a t
        exact List.mem_reverse.mp this
    | cons v vs =>
      obtain ⟨a, t, hat, ha⟩ := ih (by simp)
        (fun x hx => hw x (List.mem_cons_of_mem w hx))
      refine ⟨a, t ++ [' '] ++ w.reverse, ?_, ha⟩
      show (w ++ ' ' :: joinWords (v :: vs)).reverse = a :: (t ++ [' '] ++ w.reverse)
      rw [List.reverse_append, show (' ' :: joinWords (v :: vs)) = [' '] ++ joinWords (v :: vs) from rfl,
        List.reverse_append, hat]
      simp

/-- Stripping a join of wellformed words is the identity. -/
theorem pyStrip_joinWords (ws : List (List Char)) (hne : ws ≠ [])
    (hw : ∀ w ∈ ws, w ≠ [] ∧ ∀ c ∈ w, isSpace c = false) :
    pyStrip (joinWords ws) = joinWords ws := by
  obtain ⟨c, t, hct, hc⟩ := joinWords_head_nonspace ws hne hw
  obtain ⟨d, u, hdu, hd⟩ := joinWords_last_nonspace ws hne hw
  unfold pyStrip
  rw [hct, List.dropWhile_cons, hc]
  simp only [Bool.false_eq_true, if_false]
  rw [← hct, hdu, List.dropWhile_cons, hd]
  simp only [Bool.false_eq_true, if_false]
  rw [← hdu, List.reverse_reverse]

/-- C4: for every title T, if T split into whitespace-separated words has more
than 10 words and the first half (integer-floor midpoint) joined by single
spaces equals the second half after trimming, then `clean_patent_title`
returns the first half; for every other title it returns T with each run of
whitespace collapsed to a single space and surrounding whitespace trimmed. -/
theorem c4_clean_patent_title_spec (t : List Char) :
    clean_patent_title t =
      (let ws := pySplit t
       let midpoint := ws.length / 2
       if 10 < ws.length ∧
           pyStrip (joinWords (ws.take midpoint)) = pyStrip (joinWords (ws.drop midpoint))
       then joinWords (ws.take midpoint)
       else collapseWs (pyStrip t)) := by
  by_cases ht : t.isEmpty
  · rw [List.isEmpty_iff] at ht
    subst ht
    simp [clean_patent_title, pySplit, pySplitAux, pyStrip, collapseWs]
  · simp only [clean_patent_title, ht, Bool.false_eq_true, if_false]
    rw [pySplit_collapse_strip]
    by_cases h10 : 10 < (pySplit t).length
    · by_cases heq :
          pyStrip (joinWords ((pySplit t).take ((pySplit t).length / 2))) =
            pyStrip (joinWords ((pySplit t).drop ((pySplit t).length / 2)))
      · rw [if_pos h10, if_pos heq, if_pos ⟨h10, heq⟩]
        have hmid : 0 < (pySplit t).length / 2 :=
          Nat.div_pos (by omega) (by omega)
        have htake : (pySplit t).take ((pySplit t).length / 2) ≠ [] := by
          have : 0 < ((pySplit t).take ((pySplit t).length / 2)).length := by
            rw [List.length_take]
            omega
          exact List.length_pos.mp this
        exact pyStrip_joinWords _ htake
          (fun w hw => pySplit_wellformed t w (List.take_subset _ _ hw))
      · rw [if_pos h10, if_neg heq, if_neg (fun hand => heq hand.2)]
    · rw [if_neg h10, if_neg (fun hand => h10 hand.1)]

/-- C5 counterexample: a record whose title is a single space is not the
empty string, yet `is_valid` returns `false`, because the code strips both
fields before testing them (`bool(self.title.strip() or
self.patent_number.strip())`).  This refutes the claim that validity holds
iff `title != ""` or `patent_number != ""`. -/
theorem c5_is_valid_counterexample :
    PatentData.is_valid { title := " ".data } = false ∧ " ".data ≠ ([] : List Char) := by
  constructor
  · rfl
  · intro h
    simp at h

/-- C5 (amended): `is_valid` returns `true` iff the stripped title is
nonempty or the stripped patent number is nonempty; the predicate is a pure
function of the record. -/
theorem c5_is_valid_amended (p : PatentData) :
    PatentData.is_valid p = true ↔
      (pyStrip p.title ≠ [] ∨ pyStrip p.patent_number ≠ []) := by
  unfold PatentData.is_valid
  simp [List.isEmpty_iff]

/-- C6: the readiness check returns `false` iff at least one placeholder
marker is present in the page's visible text, and its verdict does not
depend on whether the wait for the in-progress marker timed out (the caught
timeout is only logged); the check is a total function and raises
nothing. -/
theorem c6_readiness_placeholder_iff (t1 t2 : Bool) (text : List Char) :
    ((wait_for_content_load t1 text).1 = false ↔ hasPlaceholder text = true) ∧
      (wait_for_content_load t1 text).1 = (wait_for_content_load t2 text).1 := by
  unfold wait_for_content_load
  cases h : hasPlaceholder text <;> simp [h]

/-- C7: a container whose (stripped) full text contains any skip-indicator
string yields no record: `extract_patent_from_element` returns `none` before
any per-field extraction, whatever the container's field sub-elements
hold. -/
theorem c7_skip_indicator_no_record (item : Element)
    (h : containsAnySkip (pyStrip item.text) = true) :
    extract_patent_from_element item = none := by
  unfold extract_patent_from_element
  rw [if_pos h]

/-- C7 witness: the skip-indicator rejection at the concrete container
`eSkip`, whose text contains "Keyword search". -/
theorem c7_skip_indicator_witness : extract_patent_from_element eSkip = none :=
  c7_skip_indicator_no_record eSkip (by decide)

/-! ## Validity of emitted records -/

/-- The extractor's final gate: whatever record reaches
`return patent if patent.is_valid() else None` and comes out is valid. -/
theorem valid_gate (p r : PatentData)
    (h : (if p.is_valid = true then some p else none) = some r) :
    r.is_valid = true := by
  split at h
  · injection h with h'
    subst h'
    assumption
  · exact absurd h (by simp)

/-- A record returned by the extractor is valid. -/
theorem extract_some_valid (item : Element) (r : PatentData)
    (h : extract_patent_from_element item = some r) : r.is_valid = true := by
  unfold extract_patent_from_element at h
  by_cases hskip : containsAnySkip (pyStrip item.text) = true
  · rw [if_pos hskip] at h
    exact absurd h (by simp)
  · rw [if_neg hskip] at h
    exact valid_gate _ r h

/-- Every record a page's extraction emits is valid. -/
theorem scrape_page_core_valid (pg : Page) (r : PatentData)
    (h : r ∈ scrape_page_core pg) : r.is_valid = true := by
  unfold scrape_page_core at h
  by_cases hempty :
      ((pg.ngScopeRows.filter (fun row => row.resultTitle.isSome)).filterMap
        extract_patent_from_element).isEmpty = true
  · rw [if_pos hempty] at h
    obtain ⟨e, _, he⟩ := List.mem_filterMap.mp h
    exact extract_some_valid e r he
  · rw [if_neg hempty] at h
    obtain ⟨e, _, he⟩ := List.mem_filterMap.mp h
    exact extract_some_valid e r he

/-- Every record a page attempt returns is valid. -/
theorem scrape_patent_page_valid (pe : PageEnv) (rs : List PatentData)
    (h : scrape_patent_page pe = .ok rs) (r : PatentData) (hr : r ∈ rs) :
    r.is_valid = true := by
  unfold scrape_patent_page scrape_page_body at h
  cases hx : pe.exn with
  | some e =>
    rw [hx] at h
    cases e <;>
      · simp only [] at h
        injection h with h'
        subst h'
        exact absurd hr (List.not_mem_nil r)
  | none =>
    rw [hx] at h
    by_cases hready : (wait_for_content_load pe.timedOut pe.pageText).1 = true
    · rw [if_pos hready] at h
      simp only [] at h
      injection h with h'
      subst h'
      exact scrape_page_core_valid pe.page r hr
    · rw [if_neg hready] at h
      simp only [] at h
      injection h with h'
      subst h'
      exact absurd hr (List.not_mem_nil r)

/-- Every record the per-page retry loop collects is valid. -/
theorem pageLoop_valid (pe : PageEnv) (p rate : Nat) :
    ∀ (fuel : Nat) (r : PatentData), r ∈ (pageLoop pe p rate fuel).2.1 →
      r.is_valid = true := by
  intro fuel
  induction fuel with
  | zero => intro r hr; exact absurd hr (List.not_mem_nil r)
  | succ n ih =>
    intro r hr
    unfold pageLoop at hr
    cases hsc : scrape_patent_page pe with
    | ok ps =>
      rw [hsc] at hr
      exact scrape_patent_page_valid pe ps hsc r hr
    | error e =>
      rw [hsc] at hr
      exact ih r hr

/-- Every record the page loop over a list of pages collects is valid. -/
theorem processPages_valid (cfg : ScraperConfig) (env : RunEnv) :
    ∀ (L : List Nat) (r : PatentData), r ∈ (processPages cfg env L).2.1 →
      r.is_valid = true := by
  intro L
  induction L with
  | nil => intro r hr; exact absurd hr (List.not_mem_nil r)
  | cons p rest ih =>
    intro r hr
    unfold processPages at hr
    by_cases hint : env.interruptAt = some p
    · rw [if_pos hint] at hr
      exact absurd hr (List.not_mem_nil r)
    · rw [if_neg hint] at hr
      rcases List.mem_append.mp hr with h1 | h2
      · exact pageLoop_valid (env.pageEnvs p) p cfg.rate_limit_delay
          cfg.max_retries r h1
      · exact ih r h2

/-- C8: every record that appears in a page's result list satisfies the
validity predicate (non-empty stripped title or patent number), on both the
table-row path and the fallback div path, and hence so does every record in
the final aggregate a run returns. -/
theorem c8_emitted_records_valid :
    (∀ (pg : Page) (r : PatentData), r ∈ scrape_page_core pg → r.is_valid = true) ∧
      (∀ (cfg : ScraperConfig) (env : RunEnv) (r : PatentData),
        r ∈ (scrape_all_pages cfg env).records → r.is_valid = true) := by
  refine ⟨scrape_page_core_valid, ?_⟩
  intro cfg env r hr
  unfold scrape_all_pages at hr
  by_cases hs : (setup_driver env.setup).2 = true
  · rw [if_pos hs] at hr
    exact processPages_valid cfg env (pageRange cfg) r hr
  · rw [if_neg hs] at hr
    exact absurd hr (List.not_mem_nil r)

/-- C8 witness: the concrete page `pg1` emits a record through the extractor,
and the theorem certifies it valid. -/
theorem c8_emitted_records_witness :
    { title := "Widget Improvement".data,
        patent_number := "CA1234567".data : PatentData } ∈ scrape_page_core pg1 ∧
      PatentData.is_valid
        { title := "Widget Improvement".data, patent_number := "CA1234567".data } = true := by
  refine ⟨by decide, ?_⟩
  exact c8_emitted_records_valid.1 pg1 _ (by decide)

/-! ## Resource release, exit code, and the retry loop -/

/-- Without an interrupt, the page loop never propagates an exception. -/
theorem processPages_not_raised (cfg : ScraperConfig) (env : RunEnv)
    (h : env.interruptAt = none) :
    ∀ L : List Nat, (processPages cfg env L).2.2 = false := by
  intro L
  induction L with
  | nil => rfl
  | cons p rest ih =>
    unfold processPages
    rw [if_neg (by rw [h]; exact fun hc => Option.noConfusion hc)]
    exact ih

/-- C2 counterexample: when the driver is created but a later setup step
fails (`setup_driver` catches the `WebDriverException` from `execute_script`
and returns `False` with `self.driver` already assigned), `scrape_all_pages`
returns normally with the session still open and never attempts a close — a
browser session acquired at run start is not closed before the method
returns. -/
theorem c2_setup_leak_counterexample :
    (setup_driver SetupOutcome.failAfterCreate).1 = true ∧
      (scrape_all_pages cfgSmall envLeak).raised = false ∧
      (scrape_all_pages cfgSmall envLeak).driverOpen = true ∧
      Event.closeDriver ∉ (scrape_all_pages cfgSmall envLeak).events := by
  refine ⟨rfl, rfl, rfl, ?_⟩
  intro h
  exact absurd h (by decide)

/-- C2 (amended): on every exit path reached after `setup_driver` returns
`True` — normal completion or an interrupt escaping the page loop — the
session is closed before `scrape_all_pages` returns or propagates; when
`setup_driver` returns `False`, no close is attempted (even though the
driver may already have been created during the failed setup). -/
theorem c2_driver_closed_amended (cfg : ScraperConfig) (env : RunEnv) :
    ((setup_driver env.setup).2 = true →
      (scrape_all_pages cfg env).driverOpen = false ∧
        Event.closeDriver ∈ (scrape_all_pages cfg env).events) ∧
      ((setup_driver env.setup).2 = false →
        Event.closeDriver ∉ (scrape_all_pages cfg env).events) := by
  constructor
  · intro hs
    unfold scrape_all_pages
    rw [if_pos hs]
    exact ⟨rfl, List.mem_append_right _ (List.mem_singleton.mpr rfl)⟩
  · intro hs
    unfold scrape_all_pages
    rw [if_neg (by rw [hs]; exact fun hc => Bool.noConfusion hc)]
    intro hmem
    exact absurd hmem (List.not_mem_nil _)

/-- C2 witness: the amended closure guarantee applied to a run with
successful setup and to a run whose setup fails before the driver exists. -/
theorem c2_driver_closed_witness :
    ((scrape_all_pages cfgSmall envOk).driverOpen = false ∧
        Event.closeDriver ∈ (scrape_all_pages cfgSmall envOk).events) ∧
      Event.closeDriver ∉ (scrape_all_pages cfgSmall envNoDriver).events :=
  ⟨(c2_driver_closed_amended cfgSmall envOk).1 rfl,
    (c2_driver_closed_amended cfgSmall envNoDriver).2 rfl⟩

/-- C3 counterexample: when the browser resource cannot be acquired
(`setup_driver` returns `False`), the entry point still exits with code 0 —
`main` only logs the failure and never calls `sys.exit`, refuting "non-zero
exit if and only if the browser resource cannot be acquired". -/
theorem c3_exit_code_counterexample :
    (setup_driver envNoDriver.setup).2 = false ∧
      mainExitCode cfgSmall envNoDriver = 0 := by
  exact ⟨rfl, rfl⟩

/-- C3 (amended): the standalone entry point exits with code 0 on every run
that is not interrupted by a process-level interrupt — including runs that
produce zero records and runs in which the browser resource cannot be
acquired; acquisition failure is logged, not signalled through the exit
code. -/
theorem c3_exit_code_amended (cfg : ScraperConfig) (env : RunEnv)
    (h : env.interruptAt = none) : mainExitCode cfg env = 0 := by
  unfold mainExitCode scrape_all_pages
  by_cases hs : (setup_driver env.setup).2 = true
  · rw [if_pos hs]
    simp [processPages_not_raised cfg env h]
  · rw [if_neg hs]
    rfl

/-- C3 witness: the amended exit-code guarantee at a concrete
uninterrupted run. -/
theorem c3_exit_code_witness : mainExitCode cfgSmall envOk = 0 :=
  c3_exit_code_amended cfgSmall envOk rfl

/-- C10: the single-page scrape catches every exception its body raises and
returns an empty record list instead of propagating it; consequently it
never returns an error, each pass of the driver's retry loop takes the
`break` branch on its first attempt (one navigation, zero retries, no
backoff sleep). -/
theorem c10_page_scrape_never_raises (pe : PageEnv) (p rate fuel : Nat) :
    (∀ e : PyExn, pe.exn = some e → scrape_patent_page pe = Except.ok []) ∧
      (∃ rs : List PatentData, scrape_patent_page pe = Except.ok rs ∧
        pageLoop pe p rate (fuel + 1) = ([Event.navigate p], rs, 0)) := by
  constructor
  · intro e he
    unfold scrape_patent_page scrape_page_body
    rw [he]
    cases e <;> rfl
  · have hok : ∃ rs : List PatentData, scrape_patent_page pe = Except.ok rs := by
      unfold scrape_patent_page scrape_page_body
      cases hx : pe.exn with
      | some e => cases e <;> exact ⟨[], rfl⟩
      | none =>
        by_cases hready : (wait_for_content_load pe.timedOut pe.pageText).1 = true
        · rw [if_pos hready]
          exact ⟨scrape_page_core pe.page, rfl⟩
        · rw [if_neg hready]
          exact ⟨[], rfl⟩
    obtain ⟨rs, hrs⟩ := hok
    refine ⟨rs, hrs, ?_⟩
    unfold pageLoop
    rw [hrs]

/-- C10 witness: a page environment whose body raises a
`WebDriverException` still yields `ok []` from the page scrape. -/
theorem c10_page_scrape_witness : scrape_patent_page peExn = Except.ok [] :=
  (c10_page_scrape_never_raises peExn 1 5 2).1 PyExn.webDriverException rfl

/-- C1 counterexample: a page whose rendered text never loses the
"Searching..." placeholder is reported not ready on every attempt, yet with
`max_retries = 3` the driver performs exactly one navigation for it, sleeps
no backoff, and leaves the retry counter at 0 — where the claim requires
backoff sleeps, re-navigations and a counter that reaches `max_retries`.
The retry branch cannot run because the page scrape returns the not-ready
outcome as a successful empty list. -/
theorem c1_never_ready_single_attempt :
    (wait_for_content_load peNotReady.timedOut peNotReady.pageText).1 = false ∧
      pageLoop peNotReady 1 5 3 = ([Event.navigate 1], [], 0) := by
  exact ⟨by decide, by decide⟩

/-! ## The per-page rate-limit sleep -/

/-- Events of the retry loop are navigations and backoff sleeps of its own
page only. -/
theorem pageLoop_events_kinds (pe : PageEnv) (p rate : Nat) :
    ∀ fuel : Nat, ∀ e ∈ (pageLoop pe p rate fuel).1,
      e = Event.navigate p ∨ e = Event.retrySleep p (rate * 2) := by
  intro fuel
  induction fuel with
  | zero => intro e he; exact absurd he (List.not_mem_nil e)
  | succ n ih =>
    intro e he
    unfold pageLoop at he
    cases hsc : scrape_patent_page pe with
    | ok ps =>
      rw [hsc] at he
      rcases List.mem_singleton.mp he with rfl
      exact Or.inl rfl
    | error err =>
      rw [hsc] at he
      rcases List.mem_cons.mp he with rfl | he'
      · exact Or.inl rfl
      · rcases List.mem_cons.mp he' with rfl | he''
        · exact Or.inr rfl
        · exact ih e he''

/-- A retry loop that is allowed at least one iteration navigates to its
page. -/
theorem pageLoop_navigate_mem (pe : PageEnv) (p rate fuel : Nat) :
    Event.navigate p ∈ (pageLoop pe p rate (fuel + 1)).1 := by
  unfold pageLoop
  cases hsc : scrape_patent_page pe with
  | ok ps => exact List.mem_singleton.mpr rfl
  | error err => exact List.mem_cons_self _ _

/-- Every event of the page loop belongs to one of the processed pages. -/
theorem processPages_eventPage (cfg : ScraperConfig) (env : RunEnv) :
    ∀ L : List Nat, ∀ e ∈ (processPages cfg env L).1,
      ∃ q ∈ L, eventPage e = some q := by
  intro L
  induction L with
  | nil => intro e he; exact absurd he (List.not_mem_nil e)
  | cons p rest ih =>
    intro e he
    unfold processPages at he
    by_cases hint : env.interruptAt = some p
    · rw [if_pos hint] at he
      exact absurd he (List.not_mem_nil e)
    · rw [if_neg hint] at he
      rcases List.mem_append.mp he with h1 | h2
      · rcases pageLoop_events_kinds (env.pageEnvs p) p cfg.rate_limit_delay
            cfg.max_retries e h1 with rfl | rfl
        · exact ⟨p, List.mem_cons_self p rest, rfl⟩
        · exact ⟨p, List.mem_cons_self p rest, rfl⟩
      · rcases List.mem_cons.mp h2 with rfl | h3
        · exact ⟨p, List.mem_cons_self p rest, rfl⟩
        · obtain ⟨q, hqm, hqe⟩ := ih e h3
          exact ⟨q, List.mem_cons_of_mem p hqm, hqe⟩

/-- Decomposition of the page loop's trace around one page `p`: exactly one
rate-limit sleep for `p`, preceded by `p`'s navigation and only events of
pages up to `p`, followed only by events of later pages. -/
theorem processPages_decomp (cfg : ScraperConfig) (env : RunEnv)
    (hni : env.interruptAt = none) (hmr : 1 ≤ cfg.max_retries) (p : Nat) :
    ∀ L1 L2 : List Nat, (∀ q ∈ L1, q < p) → (∀ q ∈ L2, p < q) →
      ∃ A B, (processPages cfg env (L1 ++ p :: L2)).1 =
          A ++ Event.rateSleep p cfg.rate_limit_delay :: B ∧
        Event.rateSleep p cfg.rate_limit_delay ∉ A ∧
        Event.rateSleep p cfg.rate_limit_delay ∉ B ∧
        Event.navigate p ∈ A ∧
        (∀ e ∈ A, ∀ q : Nat, eventPage e = some q → q ≤ p) ∧
        (∀ e ∈ B, ∀ q : Nat, eventPage e = some q → p < q) := by
  intro L1
  induction L1 with
  | nil =>
    intro L2 _ hL2
    simp only [List.nil_append]
    unfold processPages
    rw [if_neg (by rw [hni]; exact fun hc => Option.noConfusion hc)]
    refine ⟨(pageLoop (env.pageEnvs p) p cfg.rate_limit_delay cfg.max_retries).1,
      (processPages cfg env L2).1, rfl, ?_, ?_, ?_, ?_, ?_⟩
    · intro hmem
      rcases pageLoop_events_kinds (env.pageEnvs p) p cfg.rate_limit_delay
          cfg.max_retries _ hmem with h | h <;> exact Event.noConfusion h
    · intro hmem
      obtain ⟨q, hqm, hqe⟩ := processPages_eventPage cfg env L2 _ hmem
      have hpq : p = q := by
        have : (some p : Option Nat) = some q := hqe
        injection this
      subst hpq
      exact absurd (hL2 p hqm) (lt_irrefl p)
    · obtain ⟨k, hk⟩ : ∃ k, cfg.max_retries = k + 1 :=
        ⟨cfg.max_retries - 1, by omega⟩
      rw [hk]
      exact pageLoop_navigate_mem (env.pageEnvs p) p cfg.rate_limit_delay k
    · intro e he q hqe
      rcases pageLoop_events_kinds (env.pageEnvs p) p cfg.rate_limit_delay
          cfg.max_retries e he with rfl | rfl
      · have : (some p : Option Nat) = some q := hqe
        injection this with h
        omega
      · have : (some p : Option Nat) = some q := hqe
        injection this with h
        omega
    · intro e he q hqe
      obtain ⟨q', hq'm, hq'e⟩ := processPages_eventPage cfg env L2 e he
      rw [hqe] at hq'e
      injection hq'e with h
      subst h
      exact hL2 q hq'm
  | cons a L1' ih =>
    intro L2 hL1 hL2
    have ha : a < p := hL1 a (List.mem_cons_self a L1')
    have hL1' : ∀ q ∈ L1', q < p := fun q hq => hL1 q (List.mem_cons_of_mem a hq)
    obtain ⟨A', B', hEq, hnA, hnB, hnav, hA, hB⟩ := ih L2 hL1' hL2
    simp only [List.cons_append]
    unfold processPages
    rw [if_neg (by rw [hni]; exact fun hc => Option.noConfusion hc)]
    refine ⟨(pageLoop (env.pageEnvs a) a cfg.rate_limit_delay cfg.max_retries).1 ++
        Event.rateSleep a cfg.rate_limit_delay :: A', B', ?_, ?_, hnB, ?_, ?_, hB⟩
    · rw [hEq]
      simp [List.append_assoc]
    · intro hmem
      rcases List.mem_append.mp hmem with h1 | h2
      · rcases pageLoop_events_kinds (env.pageEnvs a) a cfg.rate_limit_delay
            cfg.max_retries _ h1 with h | h <;> exact Event.noConfusion h
      · rcases List.mem_cons.mp h2 with h | h
        · have : p = a := by injection h
          omega
        · exact hnA h
    · exact List.mem_append_right _ (List.mem_cons_of_mem _ hnav)
    · intro e he q hqe
      rcases List.mem_append.mp he with h1 | h2
      · rcases pageLoop_events_kinds (env.pageEnvs a) a cfg.rate_limit_delay
            cfg.max_retries e h1 with rfl | rfl
        · have : (some a : Option Nat) = some q := hqe
          injection this with h
          omega
        · have : (some a : Option Nat) = some q := hqe
          injection this with h
          omega
      · rcases List.mem_cons.mp h2 with rfl | h3
        · have : (some a : Option Nat) = some q := hqe
          injection this with h
          omega
        · exact hA e h3 q hqe

/-- Membership in the configured page range yields a sorted decomposition
around the member. -/
theorem pageRange_decomp (cfg : ScraperConfig) (p : Nat)
    (hp : p ∈ pageRange cfg) :
    ∃ L1 L2, pageRange cfg = L1 ++ p :: L2 ∧
      (∀ q ∈ L1, q < p) ∧ (∀ q ∈ L2, p < q) := by
  unfold pageRange at hp ⊢
  rw [List.mem_range'_1] at hp
  obtain ⟨h1, h2⟩ := hp
  refine ⟨List.range' cfg.start_page (p - cfg.start_page),
    List.range' (p + 1) (cfg.end_page + 1 - cfg.start_page - (p - cfg.start_page) - 1),
    ?_, ?_, ?_⟩
  · have e1 : List.range' cfg.start_page (p - cfg.start_page) ++
        List.range' (cfg.start_page + (p - cfg.start_page))
          (cfg.end_page + 1 - cfg.start_page - (p - cfg.start_page)) =
        List.range' cfg.start_page (cfg.end_page + 1 - cfg.start_page) := by
      rw [List.range'_append_1]
      congr 1
      omega
    have e2 : cfg.start_page + (p - cfg.start_page) = p := by omega
    have e3 : cfg.end_page + 1 - cfg.start_page - (p - cfg.start_page) =
        (cfg.end_page + 1 - cfg.start_page - (p - cfg.start_page) - 1) + 1 := by
      omega
    rw [e2, e3, List.range'_succ] at e1
    exact e1.symm
  · intro q hq
    rw [List.mem_range'_1] at hq
    omega
  · intro q hq
    rw [List.mem_range'_1] at hq
    omega

/-- C9: in an uninterrupted run with successful setup and at least one
allowed attempt per page, the driver sleeps `rate_limit_delay` exactly once
for every page of the configured range, after that page's navigation and all
of that page's events, and before any event of a later page. -/
theorem c9_rate_sleep_once_per_page (cfg : ScraperConfig) (env : RunEnv)
    (p : Nat) (hs : env.setup = SetupOutcome.ok) (hni : env.interruptAt = none)
    (hmr : 1 ≤ cfg.max_retries) (hp : p ∈ pageRange cfg) :
    ∃ A B, (scrape_all_pages cfg env).events =
        A ++ Event.rateSleep p cfg.rate_limit_delay :: B ∧
      Event.rateSleep p cfg.rate_limit_delay ∉ A ∧
      Event.rateSleep p cfg.rate_limit_delay ∉ B ∧
      Event.navigate p ∈ A ∧
      (∀ e ∈ A, ∀ q : Nat, eventPage e = some q → q ≤ p) ∧
      (∀ e ∈ B, ∀ q : Nat, eventPage e = some q → p < q) := by
  obtain ⟨L1, L2, hR, hL1, hL2⟩ := pageRange_decomp cfg p hp
  obtain ⟨A, B, hEq, hnA, hnB, hnav, hA, hB⟩ :=
    processPages_decomp cfg env hni hmr p L1 L2 hL1 hL2
  unfold scrape_all_pages
  rw [if_pos (by rw [hs]; rfl)]
  refine ⟨A, B ++ [Event.closeDriver], ?_, hnA, ?_, hnav, hA, ?_⟩
  · show (processPages cfg env (pageRange cfg)).1 ++ [Event.closeDriver] =
      A ++ Event.rateSleep p cfg.rate_limit_delay :: (B ++ [Event.closeDriver])
    rw [hR, hEq]
    simp [List.append_assoc]
  · intro hmem
    rcases List.mem_append.mp hmem with h | h
    · exact hnB h
    · exact Event.noConfusion (List.mem_singleton.mp h)
  · intro e he q hqe
    rcases List.mem_append.mp he with h | h
    · exact hB e h q hqe
    · rcases List.mem_singleton.mp h with rfl
      exact Option.noConfusion hqe

/-- C9 witness: the per-page sleep decomposition at page 1 of a concrete
uninterrupted two-page run. -/
theorem c9_rate_sleep_witness :
    ∃ A B, (scrape_all_pages cfgSmall envOk).events =
        A ++ Event.rateSleep 1 cfgSmall.rate_limit_delay :: B ∧
      Event.rateSleep 1 cfgSmall.rate_limit_delay ∉ A ∧
      Event.rateSleep 1 cfgSmall.rate_limit_delay ∉ B ∧
      Event.navigate 1 ∈ A ∧
      (∀ e ∈ A, ∀ q : Nat, eventPage e = some q → q ≤ 1) ∧
      (∀ e ∈ B, ∀ q : Nat, eventPage e = some q → 1 < q) :=
  c9_rate_sleep_once_per_page cfgSmall envOk 1 rfl rfl (by decide) (by decide)

/-- The retry counter never exceeds the number of allowed iterations. -/
theorem pageLoop_retries_le (pe : PageEnv) (p rate : Nat) :
    ∀ fuel : Nat, (pageLoop pe p rate fuel).2.2 ≤ fuel := by
  intro fuel
  induction fuel with
  | zero => exact Nat.le_refl 0
  | succ n ih =>
    unfold pageLoop
    cases hsc : scrape_patent_page pe with
    | ok ps => exact Nat.zero_le _
    | error err => exact Nat.succ_le_succ ih

/-- C1 (amended): when the content-readiness check reports a page not ready
(and the attempt's body raises nothing), the single-page scrape returns the
empty record list as a success, so the driver's retry loop ends the page in
one attempt: one navigation, no backoff sleep, no re-navigation, a retry
counter of 0, and zero records — the run continues with the next page, and
the retry counter of any page never exceeds the allowed `max_retries`
iterations. -/
theorem c1_not_ready_no_retry_amended (pe : PageEnv) (p rate fuel : Nat)
    (hexn : pe.exn = none)
    (h : (wait_for_content_load pe.timedOut pe.pageText).1 = false) :
    scrape_patent_page pe = Except.ok [] ∧
      pageLoop pe p rate (fuel + 1) = ([Event.navigate p], [], 0) ∧
      (∀ f : Nat, (pageLoop pe p rate f).2.2 ≤ f) := by
  have hok : scrape_patent_page pe = Except.ok [] := by
    unfold scrape_patent_page scrape_page_body
    rw [hexn]
    rw [if_neg (by rw [h]; exact fun hc => Bool.noConfusion hc)]
  refine ⟨hok, ?_, pageLoop_retries_le pe p rate⟩
  unfold pageLoop
  rw [hok]

/-- C1 witness: the amended single-attempt behaviour at the concrete
never-ready page environment. -/
theorem c1_not_ready_witness :
    scrape_patent_page peNotReady = Except.ok [] ∧
      pageLoop peNotReady 1 5 (2 + 1) = ([Event.navigate 1], [], 0) ∧
      (∀ f : Nat, (pageLoop peNotReady 1 5 f).2.2 ≤ f) :=
  c1_not_ready_no_retry_amended peNotReady 1 5 2 rfl (by decide)
